import Mathlib

/-!
Verification of the scholarmis-framework plugin subsystem specification.

The definitions below are a shallow embedding of
`src/scholarmis/framework/plugins/{metadata,validators,lockfile,loader,
installer,mergers,extensions,discoverers}.py`.  Python dictionaries are
modelled as insertion-ordered association lists, Python exceptions as
`Except` errors, and the filesystem / subprocess environment as explicit
function parameters.  Python string truthiness (`""` is falsy) is modelled
by `strTruthy` / `optStrTruthy`.
-/

set_option autoImplicit false

namespace Scholarmis

/-- Errors raised by the Python code, by exception class.  In
`exceptions.py`, `PluginDependencyError` and `PluginValidationError` are
sibling subclasses of `PluginLoadError`; neither is a subclass of the
other. -/
inductive PyErr where
  | pluginDependencyError (names : List String)
  | pluginValidationError (msg : String)
  | attributeError (attr : String)
  | nameError (var : String)
  | frozenInstanceError (fieldName : String)
  | valueError (msg : String)
deriving Repr, DecidableEq

/-- Python truthiness of a string: `""` is falsy. -/
def strTruthy (s : String) : Bool := s != ""

/-- Python truthiness of an optional string: `None` and `""` are falsy. -/
def optStrTruthy : Option String → Bool
  | none => false
  | some s => s != ""

/-- Update an insertion-ordered association list under a key, appending the
pair when the key is absent (Python `d[k] = v`). -/
def assocSet {α : Type} : List (String × α) → String → α → List (String × α)
  | [], k, v => [(k, v)]
  | (k', v') :: rest, k, v =>
    if k' = k then (k', v) :: rest else (k', v') :: assocSet rest k v

/-- Characters stripped by Python `str.strip()` (ASCII whitespace). -/
def isPySpace (c : Char) : Bool :=
  c = ' ' || c = '\t' || c = '\n' || c = '\r' || c = Char.ofNat 11 || c = Char.ofNat 12

/-- Python `str.strip()`: remove leading and trailing whitespace. -/
def pyStrip (cs : List Char) : List Char :=
  ((cs.dropWhile isPySpace).reverse.dropWhile isPySpace).reverse

/-- Python `str.split(sep)` with an explicit one-character separator: split
at every occurrence, keeping empty pieces (`"".split(" ") == [""]`). -/
def splitOnChar (sep : Char) : List Char → List (List Char)
  | [] => [[]]
  | c :: rest =>
    let r := splitOnChar sep rest
    if c = sep then [] :: r
    else
      match r with
      | h :: t => (c :: h) :: t
      | [] => [[c]]

/-- Value of a list of decimal digit characters (Python `int` on a digit
string). -/
def digitsToNat (s : List Char) : Nat :=
  s.foldl (fun n c => n * 10 + (c.toNat - '0'.toNat)) 0

/-- The immutable plugin metadata record of `metadata.py`
(`@dataclass(frozen=True) class PluginMetadata`). -/
structure PluginMetadata where
  name : String
  source : String
  module : String
  version : String := "unknown"
  author : Option String := none
  authorEmail : Option String := none
  requires : List String := []
  pin : Option String := none
  checksum : Option String := none
  official : Option Bool := none
deriving Repr, DecidableEq

/-- Whether `s` starts with `pre`, computed on the character lists (the
byte-position-based `String.startsWith` does not reduce definitionally). -/
def startsWithStr (s pre : String) : Bool :=
  pre.data.isPrefixOf s.data

/-- Drop the first `n` characters of `s`. -/
def dropStr (s : String) (n : Nat) : String :=
  String.mk (s.data.drop n)

/-- The `official` auto-detection regex `^scholarmis([_-]|$)` of
`PluginMetadata.__post_init__`, case-insensitive. -/
def isOfficialName (name : String) : Bool :=
  let l := String.mk (name.data.map Char.toLower)
  l = "scholarmis" || startsWithStr l "scholarmis_" || startsWithStr l "scholarmis-"

/-- `PluginMetadata.__post_init__`: derive `official` from the name when the
flag is `None`. -/
def mkPluginMetadata (name source module version : String)
    (author authorEmail : Option String) (requires : List String)
    (pin checksum : Option String) (official : Option Bool) : PluginMetadata :=
  { name := name, source := source, module := module, version := version,
    author := author, authorEmail := authorEmail, requires := requires,
    pin := pin, checksum := checksum,
    official :=
      match official with
      | none => some (isOfficialName name)
      | some b => some b }

/-- A JSON object stored under one plugin name in the lockfile document.
Fields absent from the JSON and fields holding JSON `null` are both `none`
(Python `dict.get` returns `None` for both). -/
structure LockEntry where
  name : Option String := none
  source : Option String := none
  module : Option String := none
  version : Option String := none
  author : Option String := none
  authorEmail : Option String := none
  requires : Option (List String) := none
  pin : Option String := none
  checksum : Option String := none
  official : Option Bool := none
deriving Repr, DecidableEq

/-- The lockfile document `{"plugins": {...}}` of `lockfile.py`. -/
structure LockDoc where
  plugins : List (String × LockEntry)
deriving Repr, DecidableEq

/-- `PluginMetadata.to_dict`. -/
def PluginMetadata.toDict (m : PluginMetadata) : LockEntry :=
  { name := some m.name, source := some m.source, module := some m.module,
    version := some m.version, author := m.author,
    authorEmail := m.authorEmail, requires := some m.requires,
    pin := m.pin, checksum := m.checksum, official := m.official }

/-- `PluginMetadata.from_dict`. -/
def PluginMetadata.fromDict (e : LockEntry) : PluginMetadata :=
  mkPluginMetadata (e.name.getD "") (e.source.getD "") (e.module.getD "")
    (e.version.getD "unknown") e.author e.authorEmail (e.requires.getD [])
    e.pin e.checksum e.official

/-- `DependencyValidator.parse_dependency`: split a requires entry on space
characters; with no space the whole original string is the name. -/
def parseDependency (dep : String) : String × Option String :=
  let parts := splitOnChar ' ' (pyStrip dep.data)
  if parts.length > 1 then
    (String.mk (parts.headD []), some (String.mk parts.tail.flatten))
  else
    (dep, none)

/-- `LatestMerge.parse_semver`: strip everything from the first `-` or `+`,
then split on dots; non-numeric or missing components default to 0. -/
def parseSemver (version : String) : Nat × Nat × Nat :=
  if version = "" then (0, 0, 0)
  else
    let clean := (splitOnChar '+' ((splitOnChar '-' version.data).headD [])).headD []
    let parts := splitOnChar '.' clean
    let comp (i : Nat) : Nat :=
      match parts[i]? with
      | some p => if !p.isEmpty && p.all Char.isDigit then digitsToNat p else 0
      | none => 0
    (comp 0, comp 1, comp 2)

/-- The version parse described by the claim's words alone: split the raw
version on dots with non-numeric or missing components defaulting to 0,
with no pre-release or build-suffix stripping.  Used only to compare the
claim against the code. -/
def parseSemverClaimed (version : String) : Nat × Nat × Nat :=
  if version = "" then (0, 0, 0)
  else
    let parts := splitOnChar '.' version.data
    let comp (i : Nat) : Nat :=
      match parts[i]? with
      | some p => if !p.isEmpty && p.all Char.isDigit then digitsToNat p else 0
      | none => 0
    (comp 0, comp 1, comp 2)

/-- Lexicographic strict order on version triples (Python tuple `<`). -/
def semverLt (a b : Nat × Nat × Nat) : Bool :=
  decide (a.1 < b.1) ||
    (decide (a.1 = b.1) &&
      (decide (a.2.1 < b.2.1) ||
        (decide (a.2.1 = b.2.1) && decide (a.2.2 < b.2.2))))

/-- `LatestMerge.merge`: keep `new` exactly when its parsed triple is
strictly greater; ties keep `existing`. -/
def latestMerge (existing new : PluginMetadata) : PluginMetadata :=
  if semverLt (parseSemver existing.version) (parseSemver new.version) then new
  else existing

/-- `LatestMerge.merge` as the claim words it (using the claim's parse).
Used only to compare the claim against the code. -/
def latestMergeClaimed (existing new : PluginMetadata) : PluginMetadata :=
  if semverLt (parseSemverClaimed existing.version) (parseSemverClaimed new.version) then new
  else existing

/-- `FirstWinsMerge.merge`. -/
def firstWinsMerge (existing _new : PluginMetadata) : PluginMetadata :=
  existing

/-- One step of `CompositeDiscoverer.discover`'s accumulation dictionary:
merge under an existing name, otherwise insert. -/
def compositeStep (merge : PluginMetadata → PluginMetadata → PluginMetadata)
    (acc : List (String × PluginMetadata)) (p : PluginMetadata) :
    List (String × PluginMetadata) :=
  match List.lookup p.name acc with
  | some existing => assocSet acc p.name (merge existing p)
  | none => acc ++ [(p.name, p)]

/-- `CompositeDiscoverer.discover`, abstracted over the stream of
already-extended records produced by the configured discoverers: fold into
a name-keyed dictionary and return its values. -/
def compositeDiscover (merge : PluginMetadata → PluginMetadata → PluginMetadata)
    (discovered : List PluginMetadata) : List PluginMetadata :=
  (discovered.foldl (compositeStep merge) []).map Prod.snd

/-- Keep the first occurrence of each name, relative to the names already
seen (the key order of a dictionary built by repeated insertion). -/
def dedupFirstAux (seen : List String) : List String → List String
  | [] => []
  | x :: xs =>
    if x ∈ seen then dedupFirstAux seen xs
    else x :: dedupFirstAux (seen ++ [x]) xs

/-- Keep the first occurrence of each name in a list. -/
def dedupFirst (l : List String) : List String := dedupFirstAux [] l

/-- Modelled from the spec: the third-party `semver` library used by
`utils.match_version` / `utils.compare_version` is not part of this
repository.  Per spec §3 a constraint uses "standard semantic-version range
syntax"; this model parses plain `major.minor.patch` versions and treats
anything else as unparsable, which sends the callers into their documented
fallback branches (the `except` clauses of `utils.py`). -/
def parseStrictSemver (s : String) : Option (Nat × Nat × Nat) :=
  match splitOnChar '.' s.data with
  | [a, b, c] =>
    if (!a.isEmpty && a.all Char.isDigit) && (!b.isEmpty && b.all Char.isDigit)
        && (!c.isEmpty && c.all Char.isDigit) then
      some (digitsToNat a, digitsToNat b, digitsToNat c)
    else none
  | _ => none

/-- `utils.compare_version`: semantic comparison, falling back to Python
string comparison `(a > b) - (a < b)` when the library raises. -/
def compareVersion (a b : String) : Int :=
  match parseStrictSemver a, parseStrictSemver b with
  | some va, some vb => if semverLt va vb then -1 else if va = vb then 0 else 1
  | _, _ => if a < b then -1 else if b < a then 1 else 0

/-- Operator prefix of a semver range constraint such as `">=1.2.3"`. -/
def parseConstraintOp (c : String) : Option (String × String) :=
  if startsWithStr c ">=" then some (">=", dropStr c 2)
  else if startsWithStr c "<=" then some ("<=", dropStr c 2)
  else if startsWithStr c "==" then some ("==", dropStr c 2)
  else if startsWithStr c "!=" then some ("!=", dropStr c 2)
  else if startsWithStr c ">" then some (">", dropStr c 1)
  else if startsWithStr c "<" then some ("<", dropStr c 1)
  else none

/-- `utils.match_version`: a falsy constraint always matches; an
unparsable version or constraint falls back to exact string equality
(the `except` branch of `utils.py`). -/
def matchVersion (version : String) (constraint : Option String) : Bool :=
  match constraint with
  | none => true
  | some c =>
    if c = "" then true
    else
      match parseConstraintOp c, parseStrictSemver version with
      | some (op, cv), some v =>
        match parseStrictSemver cv with
        | some w =>
          if op = ">=" then !semverLt v w
          else if op = "<=" then !semverLt w v
          else if op = "==" then v == w
          else if op = "!=" then v != w
          else if op = ">" then semverLt w v
          else semverLt v w
        | none => version == c
      | _, _ => version == c

/-- `LockFile.get_plugin` (via `get_plugins`): look the name up in the
document's `plugins` object. -/
def LockFile.getPlugin (doc : LockDoc) (name : String) : Option LockEntry :=
  List.lookup name doc.plugins

/-- `LockFile.get_locked`: materialize every entry through
`PluginMetadata.from_dict`. -/
def LockFile.getLocked (doc : LockDoc) : List PluginMetadata :=
  doc.plugins.map (fun kv => PluginMetadata.fromDict kv.2)

/-- `LockFile.delete_plugin`: remove the entry if present, reporting
whether one existed. -/
def LockFile.deletePlugin (doc : LockDoc) (name : String) : Bool × LockDoc :=
  if (List.lookup name doc.plugins).isSome then
    (true, ⟨doc.plugins.filter (fun kv => kv.1 != name)⟩)
  else
    (false, doc)

/-- The three-field entry `{"version": ..., "source": ..., "pin": ...}`
written by `LockFile.add_plugin`. -/
def lockEntryOf (version source : String) (pin : Option String) : LockEntry :=
  { version := some version, source := some source, pin := pin }

/-- `LockFile.add_plugin`.  With an existing entry and `force` unset it
validates downgrade and pin before any write.  The final pin expression
`pin or pinned if plugin else None` parses as `(pin or pinned) if plugin
else None`, and the local `pinned` is bound only inside the
`if plugin and not force` branch: with `force` set, an existing entry and a
falsy `pin`, evaluating `pinned` raises `NameError`. -/
def LockFile.addPlugin (doc : LockDoc) (name version source : String)
    (pin : Option String) (force : Bool) : Except PyErr LockDoc :=
  match LockFile.getPlugin doc name, force with
  | some plugin, false =>
    if (match plugin.version with
        | some pv => pv != "" && decide (compareVersion version pv < 0)
        | none => false) then
      .error (.valueError "downgrade")
    else
      let pinned := plugin.pin
      if (match pinned with
          | some pd => pd != "" && !matchVersion version (some pd)
          | none => false) then
        .error (.valueError "pin-violation")
      else
        let finalPin := if optStrTruthy pin then pin else pinned
        .ok ⟨assocSet doc.plugins name (lockEntryOf version source finalPin)⟩
  | some _, true =>
    if optStrTruthy pin then
      .ok ⟨assocSet doc.plugins name (lockEntryOf version source pin)⟩
    else
      .error (.nameError "pinned")
  | none, _ =>
    .ok ⟨assocSet doc.plugins name (lockEntryOf version source none)⟩

/-- The filesystem / hashing environment threaded through the embedding:
whether a source path exists, the hex digest of hashing all `.py` files
under a source folder (`ChecksumExtension`), and the hex digest of
`utils.compute_file_checksum` on a path (`BaseInstaller.lock`). -/
structure FsEnv where
  pathExists : String → Bool
  dirHash : String → String
  fileHash : String → String

/-- `ChecksumExtension.apply`: backfill `checksum` from the source folder
contents when it is missing and the source path exists. -/
def ChecksumExtension.apply (env : FsEnv) (m : PluginMetadata) : PluginMetadata :=
  if !optStrTruthy m.checksum && strTruthy m.source && env.pathExists m.source then
    { m with checksum := some ("sha256:" ++ env.dirHash m.source) }
  else m

/-- `PinExtension.apply`: a manual pin for the name wins, else an exact pin
derived from a truthy version. -/
def PinExtension.apply (manualPins : List (String × String)) (m : PluginMetadata) :
    PluginMetadata :=
  match List.lookup m.name manualPins with
  | some p => { m with pin := some p }
  | none =>
    if strTruthy m.version then { m with pin := some ("==" ++ m.version) } else m

/-- `ValidationExtension.apply`: fill missing name, version and source with
the documented fallbacks.  (The `requires is None` branch is vacuous here
because `requires` is a list in this embedding, as it is after
`__post_init__` in the source.) -/
def ValidationExtension.apply (dVersion dSource : String) (m : PluginMetadata) :
    PluginMetadata :=
  let m1 := if !strTruthy m.name then { m with name := "unnamed-plugin" } else m
  let m2 := if !strTruthy m1.version then { m1 with version := dVersion } else m1
  if !strTruthy m2.source then { m2 with source := dSource } else m2

/-- The loop body of `DependencyValidator.validate` over the `requires`
entries of a plugin. -/
def dependencyCheck (loadedPlugins : List (String × PluginMetadata)) :
    List String → Except PyErr Bool
  | [] => .ok true
  | dep :: rest =>
    let parsed := parseDependency dep
    match List.lookup parsed.1 loadedPlugins with
    | none => .error (.pluginDependencyError [parsed.1])
    | some found =>
      if found.version != "unknown" && optStrTruthy parsed.2
          && !matchVersion found.version parsed.2 then
        .error (.pluginDependencyError [parsed.1])
      else
        dependencyCheck loadedPlugins rest

/-- `DependencyValidator.validate`: raises `PluginDependencyError` for a
missing or version-incompatible dependency, else returns `True`. -/
def DependencyValidator.validate (plugin : PluginMetadata)
    (loadedPlugins : List (String × PluginMetadata)) : Except PyErr Bool :=
  dependencyCheck loadedPlugins plugin.requires

/-- `ChecksumValidator.validate`: `get_plugin` returns `None` for an absent
entry, so `locked_plugin.get("checksum")` raises `AttributeError`; with an
entry present, a falsy stored checksum gives `False`, else compare. -/
def ChecksumValidator.validate (doc : LockDoc) (plugin : PluginMetadata) :
    Except PyErr Bool :=
  match LockFile.getPlugin doc plugin.name with
  | none => .error (.attributeError "get")
  | some lockedPlugin =>
    match lockedPlugin.checksum with
    | none => .ok false
    | some stored =>
      if stored = "" then .ok false
      else .ok (plugin.checksum == some stored)

/-- `PluginLoader.validate_plugin`: run both validators under a
`try/except PluginValidationError`.  `PluginDependencyError` is a sibling
class, not a subclass, of `PluginValidationError`, so dependency errors
escape the `except` clause. -/
def PluginLoader.validatePlugin (doc : LockDoc)
    (loadedPlugins : List (String × PluginMetadata)) (plugin : PluginMetadata) :
    Except PyErr Bool :=
  let r : Except PyErr Bool := do
    let dependencyValid ← DependencyValidator.validate plugin loadedPlugins
    let checksumValid ← ChecksumValidator.validate doc plugin
    pure (dependencyValid && checksumValid)
  match r with
  | .error (.pluginValidationError _) => .ok false
  | other => other

/-- `PluginLoader.load_plugin` acting on the `loaded_plugins` registry.
`importOk` abstracts whether `importlib.import_module` finds the module; if
the module is missing, `_fallback_load` catches every exception and logs, leaving
the registry unchanged unless the filesystem re-discovery succeeds, which
this model conservatively treats as not loading. -/
def PluginLoader.loadPlugin (doc : LockDoc) (importOk : String → Bool)
    (loadedPlugins : List (String × PluginMetadata)) (plugin : PluginMetadata) :
    Except PyErr (List (String × PluginMetadata)) :=
  if (List.lookup plugin.name loadedPlugins).isSome then .ok loadedPlugins
  else
    match PluginLoader.validatePlugin doc loadedPlugins plugin with
    | .error e => .error e
    | .ok false => .ok loadedPlugins
    | .ok true =>
      if importOk plugin.module then .ok (assocSet loadedPlugins plugin.name plugin)
      else .ok loadedPlugins

/-- The `plugin_map` dictionary of `PluginLoader.topo_sort` (later
duplicates overwrite earlier values, first key position kept). -/
def buildPluginMap (plugins : List PluginMetadata) : List (String × PluginMetadata) :=
  plugins.foldl (fun m p => assocSet m p.name p) []

/-- Add a dependency name to a node's edge set (`graph[name].add(dep)`),
ignoring duplicates. -/
def assocAdd (g : List (String × List String)) (k v : String) :
    List (String × List String) :=
  g.map (fun kv => if kv.1 = k then (kv.1, if v ∈ kv.2 then kv.2 else kv.2 ++ [v]) else kv)

/-- The `graph` dictionary of `PluginLoader.topo_sort`: each plugin maps to
the set of its parsed dependency names restricted to names in the set. -/
def buildGraph (plugins : List PluginMetadata) : List (String × List String) :=
  let pluginMap := buildPluginMap plugins
  let graph0 := plugins.foldl (fun g p => assocSet g p.name []) []
  plugins.foldl
    (fun g p =>
      p.requires.foldl
        (fun g' dep =>
          let depName := (parseDependency dep).1
          if (List.lookup depName pluginMap).isSome then assocAdd g' p.name depName
          else g')
        g)
    graph0

/-- `in_degree[k] += 1` on the degree dictionary. -/
def assocIncr (d : List (String × Int)) (k : String) : List (String × Int) :=
  d.map (fun kv => if kv.1 = k then (kv.1, kv.2 + 1) else kv)

/-- `in_degree[k] -= 1` on the degree dictionary. -/
def assocDecr (d : List (String × Int)) (k : String) : List (String × Int) :=
  d.map (fun kv => if kv.1 = k then (kv.1, kv.2 - 1) else kv)

/-- The `while queue` loop of `PluginLoader.topo_sort`: pop a name, emit it,
then for every graph row whose dependency set contains the popped name
decrement that row's degree and enqueue it at zero.  `fuel` dominates the
number of iterations; every pop consumes one unit and the initial fuel
exceeds any possible number of pops. -/
def kahnLoop (graph : List (String × List String)) :
    Nat → List String → List (String × Int) → List String → List String
  | 0, _, _, sorted => sorted
  | _ + 1, [], _, sorted => sorted
  | fuel + 1, name :: queue, inDeg, sorted =>
    let step := graph.foldl
      (fun (acc : List (String × Int) × List String) entry =>
        if name ∈ entry.2 then
          let d := assocDecr acc.1 entry.1
          if List.lookup entry.1 d = some 0 then (d, acc.2 ++ [entry.1])
          else (d, acc.2)
        else acc)
      (inDeg, queue)
    kahnLoop graph fuel step.2 step.1 (sorted ++ [name])

/-- `PluginLoader.topo_sort`.  The degree dictionary counts, for each name,
how many plugins list it as a dependency (`for dep in deps:
in_degree[dep] += 1`), and the queue starts from the zero-count names. -/
def PluginLoader.topoSort (plugins : List PluginMetadata) :
    Except PyErr (List PluginMetadata) :=
  let pluginMap := buildPluginMap plugins
  let graph := buildGraph plugins
  let inDeg0 : List (String × Int) := graph.map (fun kv => (kv.1, 0))
  let inDeg := graph.foldl (fun d kv => kv.2.foldl (fun d' dep => assocIncr d' dep) d) inDeg0
  let queue := inDeg.filterMap (fun kv => if kv.2 = 0 then some kv.1 else none)
  let fuel := plugins.length * plugins.length + plugins.length + 1
  let sortedNames := kahnLoop graph fuel queue inDeg []
  if sortedNames.length ≠ plugins.length then
    .error (.pluginDependencyError
      ((pluginMap.map Prod.fst).filter (fun n => decide (n ∉ sortedNames))))
  else
    .ok (sortedNames.filterMap (fun n => List.lookup n pluginMap))

/-- Kahn's algorithm as the spec words it (§4.5): the in-degree of a node is
the number of its dependencies present in the discovered set; repeatedly
remove zero-in-degree nodes, decrementing each dependent of the removed
node; if not all nodes are consumed, fail naming the remaining set.  Used
only to compare the code against the spec; it differs from
`PluginLoader.topoSort` solely in the initial degree assignment. -/
def topoSortSpec (plugins : List PluginMetadata) :
    Except PyErr (List PluginMetadata) :=
  let pluginMap := buildPluginMap plugins
  let graph := buildGraph plugins
  let inDeg : List (String × Int) := graph.map (fun kv => (kv.1, (kv.2.length : Int)))
  let queue := inDeg.filterMap (fun kv => if kv.2 = 0 then some kv.1 else none)
  let fuel := plugins.length * plugins.length + plugins.length + 1
  let sortedNames := kahnLoop graph fuel queue inDeg []
  if sortedNames.length ≠ plugins.length then
    .error (.pluginDependencyError
      ((pluginMap.map Prod.fst).filter (fun n => decide (n ∉ sortedNames))))
  else
    .ok (sortedNames.filterMap (fun n => List.lookup n pluginMap))

/-- `PluginLoader.load_plugins`: discover, order, then load sequentially;
a `topo_sort` error or an error escaping `load_plugin` aborts the batch. -/
def PluginLoader.loadPlugins (doc : LockDoc) (importOk : String → Bool)
    (discovered : List PluginMetadata) :
    Except PyErr (List (String × PluginMetadata)) := do
  let ordered ← PluginLoader.topoSort discovered
  ordered.foldlM (fun loaded p => PluginLoader.loadPlugin doc importOk loaded p) []

/-- `PluginLoader.unload_plugin` acting on the registry. -/
def PluginLoader.unloadPlugin (loadedPlugins : List (String × PluginMetadata))
    (pluginName : String) : List (String × PluginMetadata) :=
  if (List.lookup pluginName loadedPlugins).isSome then
    loadedPlugins.filter (fun kv => kv.1 != pluginName)
  else loadedPlugins

/-- `BaseInstaller.lock`.  `PluginMetadata` is a frozen dataclass, so the
backfilling assignments `plugin.checksum = ...` and `plugin.pin = ...`
raise `FrozenInstanceError`; otherwise the full `to_dict` projection is
written under the plugin's name. -/
def BaseInstaller.lock (env : FsEnv) (doc : LockDoc) (plugin : PluginMetadata) :
    Except PyErr LockDoc :=
  if !optStrTruthy plugin.checksum && env.pathExists plugin.source then
    .error (.frozenInstanceError "checksum")
  else if !optStrTruthy plugin.pin && strTruthy plugin.version then
    .error (.frozenInstanceError "pin")
  else
    .ok ⟨assocSet doc.plugins plugin.name plugin.toDict⟩

/-- `PluginInstaller.uninstall` acting on the lockfile document and the
load registry.  `pipOk` abstracts whether the `pip uninstall` subprocess
exits cleanly; the best-effort source-directory removal touches neither
piece of state.  The `return True` sits at the end of the `try` block, not
inside the `if self.lock_file.delete_plugin(...)` body. -/
def PluginInstaller.uninstall (pipOk : Bool) (doc : LockDoc)
    (loadedPlugins : List (String × PluginMetadata)) (pluginName : String) :
    Bool × LockDoc × List (String × PluginMetadata) :=
  if !pipOk then (false, doc, loadedPlugins)
  else
    let del := LockFile.deletePlugin doc pluginName
    let loaded' :=
      if del.1 then PluginLoader.unloadPlugin loadedPlugins pluginName
      else loadedPlugins
    (true, del.2, loaded')

/-- `PluginInstaller.check_plugins` over an installed-package listing
(lower-cased name/version pairs, as built from `pip list --format=json`).
`PluginMetadata` defines no `pip_name` attribute, so the first iteration of
the errors loop raises `AttributeError`; with no locked plugins the loop
body never runs and only the untracked-package warnings are produced. -/
def PluginInstaller.checkPlugins (installed : List (String × String))
    (doc : LockDoc) : Except PyErr (List String × List String) :=
  let locked := LockFile.getLocked doc
  match locked with
  | [] =>
    let warnings := installed.filterMap
      (fun kv =>
        if startsWithStr kv.1 "scholarmis-" || startsWithStr kv.1 "scholarmis_" then
          some ("Package '" ++ kv.1 ++ "' version " ++ kv.2
            ++ " installed but not tracked in lockfile.")
        else none)
    .ok ([], warnings)
  | _ :: _ => .error (.attributeError "pip_name")

/-! Concrete inputs used by the claim theorems. -/

/-- The empty lockfile document (`{"plugins": {}}`). -/
def emptyDoc : LockDoc := ⟨[]⟩

/-- A plugin `a` whose only dependency `b` is also in the discovered set. -/
def pluginA : PluginMetadata :=
  { name := "a", source := "sa", module := "a", version := "1.0.0", requires := ["b"] }

/-- The dependency-free plugin `b`. -/
def pluginB : PluginMetadata :=
  { name := "b", source := "sb", module := "b", version := "1.0.0" }

/-- A plugin requiring `dep`, which is not loaded. -/
def pluginReq : PluginMetadata :=
  { name := "a", source := "sa", module := "a", version := "1.0.0", requires := ["dep"] }

/-- A dependency-free plugin named `plain`. -/
def pluginPlain : PluginMetadata :=
  { name := "plain", source := "sp", module := "plain", version := "1.0.0" }

/-- A lockfile whose `plain` entry records no checksum. -/
def docNoSum : LockDoc := ⟨[("plain", { version := some "1.0.0" })]⟩

/-- A filesystem environment in which no path exists. -/
def envNone : FsEnv :=
  { pathExists := fun _ => false, dirHash := fun _ => "", fileHash := fun _ => "" }

/-- A metadata record carrying a checksum but no pin. -/
def mdNoPin : PluginMetadata :=
  { name := "demo", source := "/plugins/demo", module := "demo", version := "1.0.0",
    checksum := some "sha256:abc" }

/-- A metadata record carrying both a pin and a checksum. -/
def mdPinned : PluginMetadata :=
  { name := "demo", source := "/plugins/demo", module := "demo", version := "1.0.0",
    pin := some "==1.0.0", checksum := some "sha256:abc" }

/-- The lock entry for `demo` at version `1.0.0`, pinned `==1.0.0`, with no
checksum recorded. -/
def demoLockEntry : LockEntry :=
  { version := some "1.0.0", source := some "s", pin := some "==1.0.0" }

/-- A lockfile with `demo` locked at version `1.0.0`, pinned `==1.0.0`. -/
def docLocked : LockDoc := ⟨[("demo", demoLockEntry)]⟩

/-- A candidate metadata record for `demo` carrying some checksum. -/
def mdDemo : PluginMetadata :=
  { name := "demo", source := "s", module := "demo", version := "1.0.0",
    checksum := some "sha256:x" }

/-- A record whose version carries a pre-release suffix. -/
def mdAlpha : PluginMetadata :=
  { name := "p", source := "s1", module := "p", version := "1.2.3-alpha" }

/-- A record for the same name with a plain lower version. -/
def mdNewer : PluginMetadata :=
  { name := "p", source := "s2", module := "p", version := "1.2.1" }

/-- A plugin whose requires entry `name>=1.2.0` contains no space. -/
def qReq : PluginMetadata :=
  { name := "q", source := "sq", module := "q", version := "1.0.0",
    requires := ["name>=1.2.0"] }

/-- A plugin literally named `name>=1.2.0`. -/
def pLit : PluginMetadata :=
  { name := "name>=1.2.0", source := "sl", module := "l", version := "1.3.0" }

/-- A plugin named `name`. -/
def pName : PluginMetadata :=
  { name := "name", source := "sn", module := "n", version := "1.3.0" }

/-! Helper lemmas about the list-level string operations and the
association-list dictionaries. -/

lemma splitOnChar_of_not_mem {sep : Char} : ∀ {cs : List Char}, sep ∉ cs →
    splitOnChar sep cs = [cs]
  | [], _ => rfl
  | c :: rest, h => by
    have h1 : ¬(c = sep) := fun e => h (by simp [e])
    have h2 : sep ∉ rest := fun hm => h (by simp [hm])
    simp [splitOnChar, h1, splitOnChar_of_not_mem h2]

lemma splitOnChar_append_cons {sep : Char} : ∀ (xs ys : List Char), sep ∉ xs →
    splitOnChar sep (xs ++ sep :: ys) = xs :: splitOnChar sep ys
  | [], ys, _ => by simp [splitOnChar]
  | c :: rest, ys, h => by
    have h1 : ¬(c = sep) := fun e => h (by simp [e])
    have h2 : sep ∉ rest := fun hm => h (by simp [hm])
    have ih := splitOnChar_append_cons rest ys h2
    simp [splitOnChar, h1, ih]

lemma dropWhile_cons_of_neg {p : Char → Bool} {a : Char} {l : List Char}
    (h : p a = false) : List.dropWhile p (a :: l) = a :: l := by
  simp [List.dropWhile, h]

lemma mem_of_mem_dropWhile {p : Char → Bool} {x : Char} :
    ∀ {l : List Char}, x ∈ List.dropWhile p l → x ∈ l
  | [], h => h
  | a :: l, h => by
    by_cases ha : p a
    · rw [List.dropWhile, ha] at h
      exact List.mem_cons_of_mem _ (mem_of_mem_dropWhile h)
    · rw [List.dropWhile] at h
      simp only [ha] at h
      exact h

lemma mem_of_mem_pyStrip {x : Char} {cs : List Char} (h : x ∈ pyStrip cs) : x ∈ cs := by
  unfold pyStrip at h
  rw [List.mem_reverse] at h
  have h' := mem_of_mem_dropWhile h
  rw [List.mem_reverse] at h'
  exact mem_of_mem_dropWhile h'

lemma pyStrip_eq_self {cs : List Char}
    (h1 : ∃ x xs, cs = x :: xs ∧ isPySpace x = false)
    (h2 : ∃ y ys, cs.reverse = y :: ys ∧ isPySpace y = false) :
    pyStrip cs = cs := by
  obtain ⟨x, xs, hcs, hx⟩ := h1
  obtain ⟨y, ys, hrev, hy⟩ := h2
  unfold pyStrip
  rw [hcs, dropWhile_cons_of_neg hx, ← hcs, hrev, dropWhile_cons_of_neg hy, ← hrev,
    List.reverse_reverse]

lemma sha_ne_empty (s : String) : (("sha256:" ++ s) != "") = true := by
  simp only [bne_iff_ne, ne_eq]
  intro h
  have hd := congrArg String.data h
  rw [String.data_append] at hd
  have h7 : "sha256:".data = ['s', 'h', 'a', '2', '5', '6', ':'] := rfl
  rw [h7] at hd
  simp at hd

lemma assocSet_self_mem {α : Type} : ∀ (l : List (String × α)) (k : String) (v : α),
    (k, v) ∈ assocSet l k v
  | [], k, v => by simp [assocSet]
  | (k', v') :: rest, k, v => by
    by_cases h : k' = k
    · subst h; simp [assocSet]
    · simp only [assocSet, if_neg h]
      exact List.mem_cons_of_mem _ (assocSet_self_mem rest k v)

lemma lookup_isSome_iff {α : Type} : ∀ (l : List (String × α)) (k : String),
    (List.lookup k l).isSome = true ↔ k ∈ l.map Prod.fst
  | [], k => by simp [List.lookup]
  | (a, b) :: rest, k => by
    by_cases h : k = a
    · subst h
      simp [List.lookup]
    · have hne : (k == a) = false := by simp [h]
      simp [List.lookup, hne, lookup_isSome_iff rest k, h]

lemma lookup_mem {α : Type} : ∀ {l : List (String × α)} {k : String} {v : α},
    List.lookup k l = some v → (k, v) ∈ l
  | [], k, v, h => by simp [List.lookup] at h
  | (a, b) :: rest, k, v, h => by
    by_cases he : k = a
    · subst he
      rw [List.lookup, beq_self_eq_true] at h
      injection h with h
      subst h
      exact List.mem_cons_self _ _
    · have hne : (k == a) = false := by simp [he]
      rw [List.lookup, hne] at h
      exact List.mem_cons_of_mem _ (lookup_mem h)

lemma assocSet_keys_of_mem {α : Type} : ∀ (l : List (String × α)) (k : String) (v : α),
    k ∈ l.map Prod.fst → (assocSet l k v).map Prod.fst = l.map Prod.fst
  | [], k, v, h => by simp at h
  | (a, b) :: rest, k, v, h => by
    by_cases he : a = k
    · subst he
      simp [assocSet]
    · have h' := h
      rw [List.map_cons] at h'
      have : k ∈ rest.map Prod.fst := by
        rcases List.mem_cons.mp h' with h1 | h1
        · exact absurd h1.symm he
        · exact h1
      simp [assocSet, he, assocSet_keys_of_mem rest k v this]

lemma mem_assocSet {α : Type} : ∀ {l : List (String × α)} {k : String} {v : α}
    {kv : String × α}, kv ∈ assocSet l k v → kv ∈ l ∨ kv = (k, v)
  | [], k, v, kv, h => by
    simp [assocSet] at h
    exact Or.inr h
  | (a, b) :: rest, k, v, kv, h => by
    by_cases he : a = k
    · subst he
      simp only [assocSet, if_pos rfl] at h
      rcases List.mem_cons.mp h with h1 | h1
      · exact Or.inr (by simpa using h1)
      · exact Or.inl (List.mem_cons_of_mem _ h1)
    · simp only [assocSet, if_neg he] at h
      rcases List.mem_cons.mp h with h1 | h1
      · exact Or.inl (by simp [h1])
      · rcases mem_assocSet h1 with h2 | h2
        · exact Or.inl (List.mem_cons_of_mem _ h2)
        · exact Or.inr h2

/-! Helper lemmas about `parseSemver` and the composite discoverer. -/

lemma semverLt_irrefl (a : Nat × Nat × Nat) : semverLt a a = false := by
  simp [semverLt]

lemma parseSemver_strip (v suffix : String) (hm : '-' ∉ v.data) (hp : '+' ∉ v.data) :
    parseSemver (v ++ "-" ++ suffix) = parseSemver v := by
  have hd : (v ++ "-" ++ suffix).data = v.data ++ '-' :: suffix.data := by
    simp [String.data_append]
  have hne : (v ++ "-" ++ suffix) ≠ "" := by
    intro hh
    have := congrArg String.data hh
    rw [hd] at this
    simp at this
  rw [parseSemver, if_neg hne, hd, splitOnChar_append_cons _ _ hm]
  simp only [List.headD_cons]
  rw [splitOnChar_of_not_mem hp]
  simp only [List.headD_cons]
  by_cases hv : v = ""
  · subst hv
    rfl
  · rw [parseSemver, if_neg hv, splitOnChar_of_not_mem hm]
    simp only [List.headD_cons]
    rw [splitOnChar_of_not_mem hp]
    simp only [List.headD_cons]

lemma parseSemver_numeric (a b c : String)
    (ha : a.data.all Char.isDigit = true) (hb : b.data.all Char.isDigit = true)
    (hc : c.data.all Char.isDigit = true)
    (hane : a ≠ "") (hbne : b ≠ "") (hcne : c ≠ "") :
    parseSemver (a ++ "." ++ b ++ "." ++ c)
      = (digitsToNat a.data, digitsToNat b.data, digitsToNat c.data) := by
  have notMem : ∀ (ch : Char) (s : List Char), s.all Char.isDigit = true →
      Char.isDigit ch = false → ch ∉ s := by
    intro ch s hs hch hmem
    have := List.all_eq_true.mp hs ch hmem
    rw [hch] at this
    exact Bool.noConfusion this
  have hd : (a ++ "." ++ b ++ "." ++ c).data
      = a.data ++ '.' :: (b.data ++ '.' :: c.data) := by
    simp [String.data_append]
  have hne : (a ++ "." ++ b ++ "." ++ c) ≠ "" := by
    intro hh
    have := congrArg String.data hh
    rw [hd] at this
    simp at this
  have hmfull : ∀ (ch : Char), Char.isDigit ch = false → ch ≠ '.' →
      ch ∉ (a ++ "." ++ b ++ "." ++ c).data := by
    intro ch hch hdot hmem
    rw [hd] at hmem
    rcases List.mem_append.mp hmem with h1 | h1
    · exact notMem ch a.data ha hch h1
    · rcases List.mem_cons.mp h1 with h2 | h2
      · exact hdot h2
      · rcases List.mem_append.mp h2 with h3 | h3
        · exact notMem ch b.data hb hch h3
        · rcases List.mem_cons.mp h3 with h4 | h4
          · exact hdot h4
          · exact notMem ch c.data hc hch h4
  rw [parseSemver, if_neg hne,
    splitOnChar_of_not_mem (hmfull '-' (by decide) (by decide))]
  simp only [List.headD_cons]
  rw [splitOnChar_of_not_mem (hmfull '+' (by decide) (by decide))]
  simp only [List.headD_cons]
  rw [hd, splitOnChar_append_cons _ _ (notMem '.' a.data ha (by decide)),
    splitOnChar_append_cons _ _ (notMem '.' b.data hb (by decide)),
    splitOnChar_of_not_mem (notMem '.' c.data hc (by decide))]
  have hae : a.data.isEmpty = false := by
    cases hda : a.data with
    | nil => exact absurd (String.ext hda) hane
    | cons x xs => rfl
  have hbe : b.data.isEmpty = false := by
    cases hdb : b.data with
    | nil => exact absurd (String.ext hdb) hbne
    | cons x xs => rfl
  have hce : c.data.isEmpty = false := by
    cases hdc : c.data with
    | nil => exact absurd (String.ext hdc) hcne
    | cons x xs => rfl
  simp [hae, hbe, hce, ha, hb, hc]

lemma composite_fold_invariant (merge : PluginMetadata → PluginMetadata → PluginMetadata)
    (hm : ∀ e n, merge e n = e ∨ merge e n = n) :
    ∀ (ds : List PluginMetadata) (acc : List (String × PluginMetadata)),
      (∀ kv ∈ acc, (kv.2 : PluginMetadata).name = kv.1) →
      ∀ kv ∈ ds.foldl (compositeStep merge) acc, (kv.2 : PluginMetadata).name = kv.1
  | [], acc, hacc => hacc
  | p :: ds, acc, hacc => by
    rw [List.foldl_cons]
    apply composite_fold_invariant merge hm ds
    intro kv hkv
    unfold compositeStep at hkv
    cases hl : List.lookup p.name acc with
    | some existing =>
      rw [hl] at hkv
      rcases mem_assocSet hkv with h1 | h1
      · exact hacc kv h1
      · subst h1
        have hex : existing.name = p.name := hacc (p.name, existing) (lookup_mem hl)
        rcases hm existing p with h2 | h2 <;> simp [h2, hex]
    | none =>
      rw [hl] at hkv
      rcases List.mem_append.mp hkv with h1 | h1
      · exact hacc kv h1
      · have : kv = (p.name, p) := by simpa using h1
        subst this
        rfl

lemma composite_fold_keys (merge : PluginMetadata → PluginMetadata → PluginMetadata) :
    ∀ (ds : List PluginMetadata) (acc : List (String × PluginMetadata)),
      (ds.foldl (compositeStep merge) acc).map Prod.fst
        = acc.map Prod.fst ++ dedupFirstAux (acc.map Prod.fst) (ds.map PluginMetadata.name)
  | [], acc => by simp [dedupFirstAux]
  | p :: ds, acc => by
    rw [List.foldl_cons, List.map_cons]
    by_cases hmem : p.name ∈ acc.map Prod.fst
    · have hsome : (List.lookup p.name acc).isSome = true :=
        (lookup_isSome_iff acc p.name).mpr hmem
      obtain ⟨e, he⟩ := Option.isSome_iff_exists.mp hsome
      have hstep : compositeStep merge acc p = assocSet acc p.name (merge e p) := by
        unfold compositeStep
        rw [he]
      rw [hstep, composite_fold_keys merge ds _,
        assocSet_keys_of_mem acc p.name (merge e p) hmem]
      rw [dedupFirstAux, if_pos hmem]
    · have hnone : List.lookup p.name acc = none := by
        cases hl : List.lookup p.name acc with
        | none => rfl
        | some e =>
          exact absurd ((lookup_isSome_iff acc p.name).mp (by rw [hl]; rfl)) hmem
      have hstep : compositeStep merge acc p = acc ++ [(p.name, p)] := by
        unfold compositeStep
        rw [hnone]
      rw [hstep, composite_fold_keys merge ds _]
      rw [dedupFirstAux, if_neg hmem]
      simp

lemma dedupFirstAux_nodup : ∀ (l : List String) (seen : List String),
    (dedupFirstAux seen l).Nodup ∧ ∀ x ∈ dedupFirstAux seen l, x ∉ seen
  | [], seen => by simp [dedupFirstAux]
  | x :: xs, seen => by
    by_cases hx : x ∈ seen
    · rw [dedupFirstAux, if_pos hx]
      exact dedupFirstAux_nodup xs seen
    · rw [dedupFirstAux, if_neg hx]
      obtain ⟨hnd, hnin⟩ := dedupFirstAux_nodup xs (seen ++ [x])
      constructor
      · refine List.nodup_cons.mpr ⟨?_, hnd⟩
        intro hmem
        exact hnin x hmem (by simp)
      · intro y hy
        rcases List.mem_cons.mp hy with h1 | h1
        · subst h1; exact hx
        · intro hys
          exact hnin y h1 (by simp [hys])

lemma latestMerge_or (e n : PluginMetadata) : latestMerge e n = e ∨ latestMerge e n = n := by
  unfold latestMerge
  by_cases h : semverLt (parseSemver e.version) (parseSemver n.version) = true
  · rw [if_pos h]; exact Or.inr rfl
  · rw [if_neg h]; exact Or.inl rfl

lemma composite_names (ds : List PluginMetadata) :
    (compositeDiscover latestMerge ds).map (fun p => p.name)
      = dedupFirst (ds.map PluginMetadata.name) := by
  unfold compositeDiscover dedupFirst
  have hinv := composite_fold_invariant latestMerge latestMerge_or ds [] (by simp)
  have hkeys := composite_fold_keys latestMerge ds []
  simp only [List.map_nil, List.nil_append] at hkeys
  rw [← hkeys, List.map_map]
  apply List.map_congr_left
  intro kv hkv
  exact hinv kv hkv

/-- C1: on the acyclic two-plugin set where `a` requires `b`, the code's
`topo_sort` raises a circular-dependency error reporting `{b}` instead of
ordering the set, while Kahn's algorithm as the spec describes it orders
the same set `b` before `a`.  The code initializes `in_degree[dep] += 1`
over dependency sets (counting dependents) but decrements the dependents of
each popped node, so its decrement never fires and every plugin that some
other plugin requires is reported as circular. -/
theorem c1_topo_sort_rejects_acyclic_chain :
    PluginLoader.topoSort [pluginA, pluginB]
        = .error (.pluginDependencyError ["b"])
      ∧ topoSortSpec [pluginA, pluginB] = .ok [pluginB, pluginA] :=
  ⟨rfl, rfl⟩

/-- C2: a plugin whose dependency is missing makes `load_plugin` raise
`PluginDependencyError` to its caller (the `except PluginValidationError`
clause of `validate_plugin` does not catch the sibling class), so a batch
`load_plugins` aborts; by contrast a checksum validation failure (locked
entry without a checksum) returns normally and leaves the plugin
unloaded. -/
theorem c2_dependency_failure_escapes_load_plugin :
    PluginLoader.loadPlugin emptyDoc (fun _ => true) [] pluginReq
        = .error (.pluginDependencyError ["dep"])
      ∧ PluginLoader.loadPlugins emptyDoc (fun _ => true) [pluginReq]
        = .error (.pluginDependencyError ["dep"])
      ∧ PluginLoader.loadPlugin docNoSum (fun _ => true) [] pluginPlain = .ok [] :=
  ⟨rfl, rfl, rfl⟩

/-- C3 counterexample: the installer's lock step applied to a record with
no pin raises `FrozenInstanceError` (assignment `plugin.pin = ...` on the
frozen dataclass) instead of writing the record, so the round trip fails
for such a record. -/
theorem c3_lock_step_raises_on_missing_pin :
    BaseInstaller.lock envNone emptyDoc mdNoPin
      = .error (.frozenInstanceError "pin") :=
  rfl

/-- C4: with `demo` locked at `1.0.0` pinned `==1.0.0`, adding version
`0.9.0` with `force=True` and no pin raises `NameError` on the unbound
local `pinned` instead of overwriting; without force, a downgrade and a
pin violation are each rejected before any write, and a forced add that
passes a truthy pin does overwrite. -/
theorem c4_add_plugin_force_name_error :
    LockFile.addPlugin docLocked "demo" "0.9.0" "src" none true
        = .error (.nameError "pinned")
      ∧ LockFile.addPlugin docLocked "demo" "0.9.0" "src" none false
        = .error (.valueError "downgrade")
      ∧ LockFile.addPlugin docLocked "demo" "1.5.0" "src" none false
        = .error (.valueError "pin-violation")
      ∧ LockFile.addPlugin docLocked "demo" "1.5.0" "src" (some "==1.5.0") true
        = .ok ⟨[("demo", lockEntryOf "1.5.0" "src" (some "==1.5.0"))]⟩ :=
  ⟨rfl, rfl, rfl, rfl⟩

/-- C5 counterexample: when the plugin has no lockfile entry at all,
`ChecksumValidator.validate` raises `AttributeError` (`None.get`), rather
than returning false. -/
theorem c5_validator_raises_without_entry :
    ChecksumValidator.validate emptyDoc mdDemo = .error (.attributeError "get") :=
  rfl

/-- C6 counterexample: with the pip removal succeeding and no lockfile
entry for `demo`, `uninstall` reports success even though the lockfile
deletion reported that no entry existed. -/
theorem c6_uninstall_success_without_deletion :
    PluginInstaller.uninstall true emptyDoc [] "demo" = (true, emptyDoc, [])
      ∧ (LockFile.deletePlugin emptyDoc "demo").1 = false :=
  ⟨rfl, rfl⟩

/-- C7: with one plugin locked (pinned `==1.0.0`) and version `1.1.0`
installed, `check_plugins` raises `AttributeError` on the nonexistent
`PluginMetadata.pip_name` attribute instead of reporting a pin-violation
error; the untracked-package warning path is reachable only with an empty
lockfile. -/
theorem c7_check_plugins_raises_attribute_error :
    PluginInstaller.checkPlugins [("demo", "1.1.0")] docLocked
        = .error (.attributeError "pip_name")
      ∧ PluginInstaller.checkPlugins [("scholarmis-extra", "0.1.0")] emptyDoc
        = .ok ([], ["Package 'scholarmis-extra' version 0.1.0 installed but not tracked in lockfile."]) :=
  ⟨rfl, rfl⟩

/-- C8 counterexample: for existing version `1.2.3-alpha` against new
version `1.2.1`, the code keeps `existing` (it strips the pre-release
suffix, parsing `(1,2,3)`), while the claim's parse — non-numeric
components default to 0, no stripping — parses `(1,2,0)` and would return
`new`. -/
theorem c8_prerelease_parse_counterexample :
    latestMerge mdAlpha mdNewer = mdAlpha
      ∧ latestMergeClaimed mdAlpha mdNewer = mdNewer
      ∧ mdAlpha ≠ mdNewer :=
  ⟨rfl, rfl, by decide⟩

/-- C3 (amended): for every record whose checksum and pin are already
present (non-empty), the installer's lock step writes the record's
`to_dict` projection under its name and `LockFile.get_locked` materializes
a record with the same name, version, source, pin, and checksum; records
missing the pin (or missing the checksum while their source path exists)
instead make the lock step raise `FrozenInstanceError`. -/
theorem c3_lock_round_trip (env : FsEnv) (doc : LockDoc) (p : PluginMetadata)
    (hsum : optStrTruthy p.checksum = true) (hpin : optStrTruthy p.pin = true) :
    ∃ doc', BaseInstaller.lock env doc p = .ok doc'
      ∧ ∃ m ∈ LockFile.getLocked doc', m.name = p.name ∧ m.version = p.version
        ∧ m.source = p.source ∧ m.pin = p.pin ∧ m.checksum = p.checksum := by
  refine ⟨⟨assocSet doc.plugins p.name p.toDict⟩, ?_, ?_⟩
  · rw [BaseInstaller.lock]
    simp [hsum, hpin]
  · refine ⟨PluginMetadata.fromDict p.toDict, ?_, rfl, rfl, rfl, rfl, rfl⟩
    exact List.mem_map_of_mem _ (assocSet_self_mem doc.plugins p.name p.toDict)

/-- Witness for `c3_lock_round_trip` at a concrete pinned, checksummed
record. -/
theorem c3_lock_round_trip_witness :
    ∃ doc', BaseInstaller.lock envNone emptyDoc mdPinned = .ok doc'
      ∧ ∃ m ∈ LockFile.getLocked doc', m.name = mdPinned.name
        ∧ m.version = mdPinned.version ∧ m.source = mdPinned.source
        ∧ m.pin = mdPinned.pin ∧ m.checksum = mdPinned.checksum :=
  c3_lock_round_trip envNone emptyDoc mdPinned rfl rfl

/-- C5 (amended): whenever the plugin has a lockfile entry,
`ChecksumValidator.validate` never raises, and it returns true exactly when
the entry records a non-empty checksum equal to the candidate's; with no
entry at all it raises `AttributeError` instead of returning false. -/
theorem c5_validator_with_entry (doc : LockDoc) (p : PluginMetadata) (e : LockEntry)
    (h : LockFile.getPlugin doc p.name = some e) :
    (∀ err, ChecksumValidator.validate doc p ≠ .error err)
      ∧ (ChecksumValidator.validate doc p = .ok true ↔
          ∃ c, e.checksum = some c ∧ c ≠ "" ∧ p.checksum = some c) := by
  have hv : ChecksumValidator.validate doc p
      = (match e.checksum with
         | none => Except.ok false
         | some stored =>
           if stored = "" then Except.ok false
           else Except.ok (p.checksum == some stored)) := by
    rw [ChecksumValidator.validate, h]
  rw [hv]
  cases hc : e.checksum with
  | none => simp
  | some stored =>
    have hred : (match some stored with
        | none => Except.ok false
        | some st =>
          if st = "" then Except.ok false
          else Except.ok (p.checksum == some st) : Except PyErr Bool)
        = if stored = "" then Except.ok false
          else Except.ok (p.checksum == some stored) := rfl
    rw [hred]
    by_cases hs : stored = ""
    · subst hs
      simp
    · simp only [if_neg hs]
      constructor
      · intro err hh
        exact Except.noConfusion hh
      · constructor
        · intro hh
          injection hh with hb
          exact ⟨stored, rfl, hs, beq_iff_eq.mp hb⟩
        · rintro ⟨c, hcc, hcne, hpc⟩
          injection hcc with hsc
          subst hsc
          rw [hpc]
          simp

/-- Witness for `c5_validator_with_entry` at the concrete lockfile whose
`demo` entry records no checksum. -/
theorem c5_validator_with_entry_witness :
    (∀ err, ChecksumValidator.validate docLocked mdDemo ≠ .error err)
      ∧ (ChecksumValidator.validate docLocked mdDemo = .ok true ↔
          ∃ c, demoLockEntry.checksum = some c ∧ c ≠ "" ∧ mdDemo.checksum = some c) :=
  c5_validator_with_entry docLocked mdDemo demoLockEntry rfl

/-- C6 (amended): `uninstall` reports success exactly when the pip removal
subprocess succeeded, regardless of whether a lockfile entry existed;
when the lockfile deletion reports no entry, the document and the load
registry are left unchanged. -/
theorem c6_uninstall_success_equals_pip_success (pipOk : Bool) (doc : LockDoc)
    (loaded : List (String × PluginMetadata)) (nm : String) :
    (PluginInstaller.uninstall pipOk doc loaded nm).1 = pipOk
      ∧ ((LockFile.deletePlugin doc nm).1 = false →
          PluginInstaller.uninstall pipOk doc loaded nm = (pipOk, doc, loaded)) := by
  cases pipOk with
  | false => exact ⟨rfl, fun _ => rfl⟩
  | true =>
    constructor
    · rfl
    · intro h
      rw [PluginInstaller.uninstall]
      rw [LockFile.deletePlugin] at h ⊢
      by_cases hl : (List.lookup nm doc.plugins).isSome = true
      · rw [if_pos hl] at h
        exact absurd h (by simp)
      · rw [if_neg hl]
        simp

/-- Witness for `c6_uninstall_success_equals_pip_success` on the empty
lockfile. -/
theorem c6_uninstall_witness :
    PluginInstaller.uninstall true emptyDoc [] "demo" = (true, emptyDoc, []) :=
  (c6_uninstall_success_equals_pip_success true emptyDoc [] "demo").2 rfl

/-- C8 (amended): Latest-wins merge parses each version by first taking the
prefix before the first `-` or `+`, then splitting on dots with non-numeric
or missing components defaulting to 0; it returns the new record exactly
when its tuple is strictly (lexicographically) greater, and keeps the
existing record on a tie or when existing is greater; the Composite
Discoverer applies this pairwise in a name-keyed dictionary, so the result
carries exactly one record per distinct discovered name, in first-seen
order. -/
theorem c8_latest_merge_amended :
    (∀ e n : PluginMetadata,
        semverLt (parseSemver e.version) (parseSemver n.version) = true →
          latestMerge e n = n)
      ∧ (∀ e n : PluginMetadata,
        semverLt (parseSemver e.version) (parseSemver n.version) = false →
          latestMerge e n = e)
      ∧ (∀ e n : PluginMetadata,
        parseSemver e.version = parseSemver n.version → latestMerge e n = e)
      ∧ (∀ v suffix : String, '-' ∉ v.data → '+' ∉ v.data →
        parseSemver (v ++ "-" ++ suffix) = parseSemver v)
      ∧ (∀ a b c : String, a.data.all Char.isDigit = true →
        b.data.all Char.isDigit = true → c.data.all Char.isDigit = true →
        a ≠ "" → b ≠ "" → c ≠ "" →
        parseSemver (a ++ "." ++ b ++ "." ++ c)
          = (digitsToNat a.data, digitsToNat b.data, digitsToNat c.data))
      ∧ (∀ ds : List PluginMetadata,
        (compositeDiscover latestMerge ds).map (fun p => p.name)
            = dedupFirst (ds.map PluginMetadata.name)
          ∧ (dedupFirst (ds.map PluginMetadata.name)).Nodup) := by
  refine ⟨?_, ?_, ?_, parseSemver_strip, parseSemver_numeric, ?_⟩
  · intro e n h
    unfold latestMerge
    rw [if_pos h]
  · intro e n h
    unfold latestMerge
    rw [if_neg (by simp [h])]
  · intro e n h
    unfold latestMerge
    rw [h, semverLt_irrefl, if_neg (by simp)]
  · intro ds
    exact ⟨composite_names ds, (dedupFirstAux_nodup _ _).1⟩

/-- Witness for `c8_latest_merge_amended` at concrete records and a
concrete numeric version. -/
theorem c8_latest_merge_amended_witness :
    latestMerge mdNewer mdAlpha = mdAlpha
      ∧ parseSemver ("1" ++ "." ++ "2" ++ "." ++ "3") = (1, 2, 3) :=
  ⟨c8_latest_merge_amended.1 mdNewer mdAlpha rfl,
   c8_latest_merge_amended.2.2.2.2.1 "1" "2" "3" rfl rfl rfl
     (by decide) (by decide) (by decide)⟩

/-- C9: each metadata extension is idempotent — applying it twice yields
the same record, in every field, as applying it once (for the checksum
extension, because the backfilled digest `sha256:...` is never the empty
string; for the pin and validation extensions, because a second pass either
skips each field or rewrites the same value). -/
theorem c9_extensions_idempotent :
    (∀ (env : FsEnv) (m : PluginMetadata),
        ChecksumExtension.apply env (ChecksumExtension.apply env m)
          = ChecksumExtension.apply env m)
      ∧ (∀ (manualPins : List (String × String)) (m : PluginMetadata),
        PinExtension.apply manualPins (PinExtension.apply manualPins m)
          = PinExtension.apply manualPins m)
      ∧ (∀ (dVersion dSource : String) (m : PluginMetadata),
        ValidationExtension.apply dVersion dSource
            (ValidationExtension.apply dVersion dSource m)
          = ValidationExtension.apply dVersion dSource m) := by
  refine ⟨?_, ?_, ?_⟩
  · intro env m
    by_cases h : (!optStrTruthy m.checksum && strTruthy m.source
        && env.pathExists m.source) = true
    · have hinner : ChecksumExtension.apply env m
          = { m with checksum := some ("sha256:" ++ env.dirHash m.source) } := by
        rw [ChecksumExtension.apply, if_pos h]
      rw [hinner, ChecksumExtension.apply]
      have hc : optStrTruthy (some ("sha256:" ++ env.dirHash m.source)) = true := by
        simp [optStrTruthy, sha_ne_empty]
      simp [hc]
    · have hinner : ChecksumExtension.apply env m = m := by
        rw [ChecksumExtension.apply, if_neg h]
      rw [hinner, ChecksumExtension.apply, if_neg h]
  · intro pins m
    cases hl : List.lookup m.name pins with
    | some p => simp [PinExtension.apply, hl]
    | none =>
      by_cases hv : strTruthy m.version = true
      · simp [PinExtension.apply, hl, hv]
      · simp [PinExtension.apply, hl, hv]
  · intro dv ds m
    have hu : strTruthy "unnamed-plugin" = true := rfl
    by_cases h1 : strTruthy m.name = true <;>
      by_cases h2 : strTruthy m.version = true <;>
        by_cases h3 : strTruthy m.source = true <;>
          by_cases h4 : strTruthy dv = true <;>
            by_cases h5 : strTruthy ds = true <;>
              simp [ValidationExtension.apply, h1, h2, h3, h4, h5, hu]

/-- C10: dependency specifiers are split only on space characters — a
specifier with no space is returned whole as the dependency name with no
constraint, a three-token `name c1 c2` specifier yields the constraint
`c1 ++ c2` with no separator; consequently the requires entry
`name>=1.2.0` produces a topological-sort edge to a plugin literally named
`name>=1.2.0` (and no edge to one named `name`), and dependency validation
reports the literal string as the missing plugin. -/
theorem c10_parse_dependency_space_only :
    (∀ dep : String, ' ' ∉ dep.data → parseDependency dep = (dep, none))
      ∧ (∀ name c1 c2 : String,
        (∀ c ∈ name.data, isPySpace c = false) →
        (∀ c ∈ c1.data, isPySpace c = false) →
        (∀ c ∈ c2.data, isPySpace c = false) →
        name ≠ "" → c2 ≠ "" →
        parseDependency (name ++ " " ++ c1 ++ " " ++ c2) = (name, some (c1 ++ c2)))
      ∧ buildGraph [qReq, pLit] = [("q", ["name>=1.2.0"]), ("name>=1.2.0", [])]
      ∧ buildGraph [qReq, pName] = [("q", []), ("name", [])]
      ∧ DependencyValidator.validate qReq [("name", pName)]
          = .error (.pluginDependencyError ["name>=1.2.0"]) := by
  refine ⟨?_, ?_, rfl, rfl, rfl⟩
  · intro dep h
    unfold parseDependency
    have h1 : ' ' ∉ pyStrip dep.data := fun hm => h (mem_of_mem_pyStrip hm)
    rw [splitOnChar_of_not_mem h1]
    simp
  · intro name c1 c2 hn hc1 hc2 hne h2e
    have hd : (name ++ " " ++ c1 ++ " " ++ c2).data
        = name.data ++ ' ' :: (c1.data ++ ' ' :: c2.data) := by
      simp [String.data_append]
    have hnd : name.data ≠ [] := fun hh => hne (String.ext hh)
    have hcd : c2.data ≠ [] := fun hh => h2e (String.ext hh)
    obtain ⟨nh, nt, hcons⟩ := List.exists_cons_of_ne_nil hnd
    have hrd : c2.data.reverse ≠ [] := by simpa using hcd
    obtain ⟨rh, rt, hrcons⟩ := List.exists_cons_of_ne_nil hrd
    have hrhmem : rh ∈ c2.data := by
      rw [← List.mem_reverse, hrcons]; exact List.mem_cons_self _ _
    have hstrip : pyStrip (name.data ++ ' ' :: (c1.data ++ ' ' :: c2.data))
        = name.data ++ ' ' :: (c1.data ++ ' ' :: c2.data) := by
      apply pyStrip_eq_self
      · exact ⟨nh, nt ++ ' ' :: (c1.data ++ ' ' :: c2.data),
          by rw [hcons]; rfl, hn nh (by rw [hcons]; exact List.mem_cons_self _ _)⟩
      · refine ⟨rh, rt ++ ((name.data ++ ' ' :: c1.data ++ [' ']).reverse), ?_,
          hc2 rh hrhmem⟩
        have hsplit : name.data ++ ' ' :: (c1.data ++ ' ' :: c2.data)
            = (name.data ++ ' ' :: c1.data ++ [' ']) ++ c2.data := by
          simp
        rw [hsplit, List.reverse_append, hrcons]
        rfl
    have hnmem : ' ' ∉ name.data := fun hm => absurd (hn ' ' hm) (by decide)
    have h1mem : ' ' ∉ c1.data := fun hm => absurd (hc1 ' ' hm) (by decide)
    have h2mem : ' ' ∉ c2.data := fun hm => absurd (hc2 ' ' hm) (by decide)
    unfold parseDependency
    rw [hd, hstrip, splitOnChar_append_cons _ _ hnmem,
      splitOnChar_append_cons _ _ h1mem, splitOnChar_of_not_mem h2mem]
    simp only [List.length_cons, List.length_singleton]
    norm_num
    exact String.ext (by simp [String.data_append])

/-- Witness for `c10_parse_dependency_space_only` at a concrete space-free
specifier and a concrete three-token specifier. -/
theorem c10_parse_dependency_space_only_witness :
    parseDependency "name>=1.2.0" = ("name>=1.2.0", none)
      ∧ parseDependency ("name" ++ " " ++ ">=1.2" ++ " " ++ "<2.0")
        = ("name", some (">=1.2" ++ "<2.0")) :=
  ⟨c10_parse_dependency_space_only.1 "name>=1.2.0" (by decide),
   c10_parse_dependency_space_only.2.1 "name" ">=1.2" "<2.0"
     (by decide) (by decide) (by decide) (by decide) (by decide)⟩

end Scholarmis
